import Mathlib

/-!
# Ascii2d-go: a shallow embedding of `Ascii2d.go`

Go strings are modelled as lists of characters.  Every pattern the program
searches for (`http`, `/`, `/color/`, `/bovw/`) is ASCII, so matching on
characters and matching on bytes agree.

The program talks to three outside parties: the filesystem, the HTTP server
and the FlareSolverr collaborator.  One invocation makes each call at most
once, so the answer to every call is a field of a `World` value, and the
statements quantify over all worlds.  Each call that is made is recorded
in a list of `Event`s, in the order in which it happens.
-/

namespace Ascii2d

/-! ## Strings (package `strings`) -/

/-- A Go `string`. -/
abbrev Str := List Char

/-- Go `strings.HasPrefix(s, p)`. -/
def HasPrefix (s p : Str) : Bool := p.isPrefixOf s

/-- Go `strings.HasSuffix(s, p)`. -/
def HasSuffix (s p : Str) : Bool := p.reverse.isPrefixOf s.reverse

/-- Go `strings.Index(s, sub)`: the position of the first occurrence of `sub`
in `s`, `none` standing for Go's `-1`. -/
def Index : Str → Str → Option Nat
  | [], sub => if sub = [] then some 0 else none
  | c :: cs, sub =>
    if sub.isPrefixOf (c :: cs) then some 0 else (Index cs sub).map (· + 1)

/-- Go `strings.Contains(s, sub)`, which is `Index(s, sub) >= 0`. -/
def Contains (s sub : Str) : Bool := (Index s sub).isSome

/-- The loop of Go `strings.Count` for a non-empty `sub`: find the next
occurrence, count it, continue behind it.  Every round removes at least one
character, so `fuel = len(s) + 1` rounds are never used up. -/
def countLoop (sub : Str) : Nat → Str → Nat
  | 0, _ => 0
  | fuel + 1, s =>
    match Index s sub with
    | none => 0
    | some i => 1 + countLoop sub fuel (s.drop (i + sub.length))

/-- Go `strings.Count(s, sub)`: the number of non-overlapping occurrences;
for the empty `sub` it is the number of characters plus one. -/
def Count (s sub : Str) : Nat :=
  if sub.length = 0 then s.length + 1 else countLoop sub (s.length + 1) s

/-- The replacement loop of Go `strings.Replace`: `n` rounds are left and `i`
rounds are done.  Each round copies the text before the next occurrence,
writes `new` and continues behind the occurrence.  For the empty `old` the
occurrence is at the start in round 0 and one character further in every
later round. -/
def replaceLoop (old new : Str) : Nat → Nat → Str → Str
  | 0, _, s => s
  | n + 1, i, s =>
    let j : Option Nat :=
      if old.length = 0 then some (if i > 0 then min 1 s.length else 0)
      else Index s old
    match j with
    | none => s
    | some j => s.take j ++ new ++ replaceLoop old new n (i + 1) (s.drop (j + old.length))

/-- Go `strings.Replace(s, old, new, n)`: the first `n` non-overlapping
occurrences of `old` are replaced, all of them when `n < 0`. -/
def Replace (s old new : Str) (n : Int) : Str :=
  if old = new ∨ n = 0 then s
  else
    let m := Count s old
    if m = 0 then s
    else replaceLoop old new (if n < 0 ∨ (m : Int) < n then m else n.toNat) 0 s

/-- Go `strings.ReplaceAll(s, old, new)`, which is `Replace(s, old, new, -1)`. -/
def ReplaceAll (s old new : Str) : Str := Replace s old new (-1)

/-- Go `strings.TrimRight(s, cutset)` for a cutset of one ASCII character
`c`: characters are removed from the end while the last one is `c`. -/
def TrimRight (s : Str) (c : Char) : Str :=
  (s.reverse.dropWhile (fun x => x == c)).reverse

/-- The number of positions of `s` at which `sub` occurs, overlapping
occurrences included. -/
def occurrences (sub : Str) : Str → Nat
  | [] => if sub = [] then 1 else 0
  | c :: cs => (if sub.isPrefixOf (c :: cs) then 1 else 0) + occurrences sub cs

/-! ## Constants and records -/

def API_HOST : Str := "https://ascii2d.net".toList
def API_SEARCH_FILE : Str := "/search/file".toList
def API_SEARCH_URL : Str := "/search/url".toList
def API_RESULT_COLOR : Str := "/search/color".toList
def API_RESULT_BOVW : Str := "/search/bovw".toList

/-- A Go `error`, identified by its message. -/
structure GoError where
  msg : Str
deriving DecidableEq

/-- The record `Result` of the source. -/
structure Result where
  Title : Str
  Author : Str
  Url : Str
  AuthorUrl : Str
  Thumbnail : Str
  ResultUrl : Str
  ResultType : Str
  Success : Bool
deriving DecidableEq

/-- The Go zero value `Result{}`. -/
def Result.zero : Result :=
  { Title := [], Author := [], Url := [], AuthorUrl := [], Thumbnail := [],
    ResultUrl := [], ResultType := [], Success := false }

/-- The record `Client` of the source; the FlareSolverr handle is a
reference, its behaviour is given by the `World`. -/
structure Client where
  Host : Str
  FlareSolverrClient : Nat
  NumResults : Int
deriving DecidableEq

/-- The constructor `NewClient` of the source. -/
def NewClient (overrideHost : Str) (fsClient : Nat) : Client :=
  let host : Str :=
    if overrideHost = [] then API_HOST
    else
      let overrideHost :=
        if !HasPrefix overrideHost "http".toList then "https://".toList ++ overrideHost
        else overrideHost
      TrimRight overrideHost '/'
  { Host := host, FlareSolverrClient := fsClient, NumResults := 0 }

/-! ## The parsed document (packages `html`, `cascadia`, `goquery`) -/

/-- A node of a parsed HTML document: a text node or an element with its
attributes and children. -/
inductive HtmlNode where
  | text (data : Str)
  | element (tag : Str) (attr : List (Str × Str)) (children : List HtmlNode)

/-- A node of a selection: the node and its ancestors, nearest first (the
parent pointers of the Go node). -/
structure SelNode where
  ancestors : List HtmlNode
  node : HtmlNode

/-- A goquery `Selection`: nodes in document order. -/
abbrev Selection := List SelNode

/-- A parsed document: the children of the document node. -/
structure Document where
  children : List HtmlNode

/-- The two selector shapes the source uses: `.c` and `.c tag`. -/
inductive Selector where
  | cls (c : Str)
  | clsThenTag (c : Str) (tag : Str)

/-- The first value of attribute `key` of a node and whether it exists. -/
def getAttributeValue (key : Str) : HtmlNode → Str × Bool
  | .text _ => ([], false)
  | .element _ attr _ =>
    match attr.find? (fun kv => kv.1 == key) with
    | some kv => (kv.2, true)
    | none => ([], false)

/-- Whether `c` is one of the white-space separated words of `s`; `cur` is
the word read so far. -/
def includesWord (c : Str) : Str → Str → Bool
  | cur, [] => cur == c
  | cur, x :: xs =>
    if x == ' ' || x == '\t' || x == '\r' || x == '\n' || x == '\x0c' then
      cur == c || includesWord c [] xs
    else includesWord c (cur ++ [x]) xs

/-- The class selector `.c` on one node. -/
def hasClass (c : Str) (n : HtmlNode) : Bool :=
  match n with
  | .text _ => false
  | .element _ _ _ =>
    let v := getAttributeValue "class".toList n
    v.2 && includesWord c [] v.1

/-- Whether the node is an element with the given tag. -/
def hasTag (tag : Str) : HtmlNode → Bool
  | .text _ => false
  | .element t _ _ => t == tag

/-- Whether a node with the given ancestors matches the selector. -/
def Selector.matches (sel : Selector) (anc : List HtmlNode) (n : HtmlNode) : Bool :=
  match sel with
  | .cls c => hasClass c n
  | .clsThenTag c tag => hasTag tag n && anc.any (hasClass c)

mutual
/-- The nodes of the subtree of `n` that match the selector, `n` included,
in document order. -/
def matchAll (sel : Selector) : List HtmlNode → HtmlNode → Selection
  | anc, .text d => if sel.matches anc (.text d) then [⟨anc, .text d⟩] else []
  | anc, .element t a cs =>
    (if sel.matches anc (.element t a cs) then [⟨anc, .element t a cs⟩] else [])
      ++ matchAllList sel (.element t a cs :: anc) cs
/-- The matches of `matchAll` in a list of siblings. -/
def matchAllList (sel : Selector) : List HtmlNode → List HtmlNode → Selection
  | _, [] => []
  | anc, c :: cs => matchAll sel anc c ++ matchAllList sel anc cs
end

/-- The children of a node. -/
def HtmlNode.children : HtmlNode → List HtmlNode
  | .text _ => []
  | .element _ _ cs => cs

/-- The goquery call `box.Find(selector)` on a selection of one node: the
descendants of the node that match. -/
def SelNode.Find (box : SelNode) (sel : Selector) : Selection :=
  matchAllList sel (box.node :: box.ancestors) box.node.children

/-- The goquery call `doc.Find(selector)` on the document. -/
def Document.Find (doc : Document) (sel : Selector) : Selection :=
  matchAllList sel [] doc.children

mutual
/-- The text of a node: its own data for a text node, the texts of the
children joined for an element. -/
def nodeText : HtmlNode → Str
  | .text d => d
  | .element _ _ cs => nodeTextList cs
/-- The texts of a list of nodes joined. -/
def nodeTextList : List HtmlNode → Str
  | [] => []
  | c :: cs => nodeText c ++ nodeTextList cs
end

/-- The goquery call `s.Text()`: the texts of the nodes of the selection joined. -/
def Selection.Text (s : Selection) : Str := (s.map (fun n => nodeText n.node)).flatten

/-- The goquery call `doc.Text()`. -/
def Document.Text (doc : Document) : Str := nodeTextList doc.children

/-- The goquery call `s.Length()`. -/
def Selection.Length (s : Selection) : Nat := s.length

/-- The goquery call `s.Eq(i)` for `i >= 0`: the selection of the node at
index `i`, empty when there is none. -/
def Selection.Eq (s : Selection) (i : Nat) : Selection :=
  match s.get? i with
  | some n => [n]
  | none => []

/-- The goquery call `s.Attr(name)`: the attribute of the first node. -/
def Selection.Attr (s : Selection) (name : Str) : Str × Bool :=
  match s with
  | [] => ([], false)
  | n :: _ => getAttributeValue name n.node

/-- The goquery call `s.AttrOr(name, defaultValue)`. -/
def Selection.AttrOr (s : Selection) (name defaultValue : Str) : Str :=
  let v := s.Attr name
  if v.2 then v.1 else defaultValue

/-- The goquery call `s.EachWithBreak(f)`: `f` is run on the nodes in order
until it returns `false`.  The variables the Go closure assigns to are the
state `st`. -/
def EachWithBreak {σ : Type} (f : Nat → SelNode → σ → σ × Bool) : Nat → Selection → σ → σ
  | _, [], st => st
  | i, n :: ns, st =>
    let r := f i n st
    if r.2 then EachWithBreak f (i + 1) ns r.1 else r.1

def sel_item_box : Selector := .cls "item-box".toList
def sel_detail_box_a : Selector := .clsThenTag "detail-box".toList "a".toList
def sel_image_box_img : Selector := .clsThenTag "image-box".toList "img".toList

/-- The closure that `getResult` passes to `EachWithBreak`; the state is the
pair of the variables `res` and `found`. -/
def getResult.each (c : Client) (resultUrl resultType : Str)
    (_i : Nat) (box : SelNode) (st : Result × Bool) : (Result × Bool) × Bool :=
  let links := box.Find sel_detail_box_a
  if links.Length > 0 then
    let titleSel := links.Eq 0
    let authorSel := links.Eq 1
    let thumb := ((box.Find sel_image_box_img).Attr "src".toList).1
    let res : Result :=
      { Title := titleSel.Text,
        Author := authorSel.Text,
        Url := titleSel.AttrOr "href".toList [],
        AuthorUrl := authorSel.AttrOr "href".toList [],
        Thumbnail := c.Host ++ thumb,
        ResultUrl := resultUrl,
        ResultType := resultType,
        Success := true }
    let found := res.Title != []
    ((res, found), !found)
  else (st, true)

/-- The switch of `getResult` that derives the result type from the URL. -/
def getResult.resultType (resultUrl : Str) : Str :=
  if Contains resultUrl "/color/".toList then "color".toList
  else if Contains resultUrl "/bovw/".toList then "bovw".toList
  else []

/-- The method `Client.getResult` of the source.  `parse` is
`goquery.NewDocumentFromReader` on the body; the Go pair `(res, err)` is
returned as a pair. -/
def getResult (c : Client) (parse : Str → Except GoError Document)
    (body resultUrl : Str) : Result × Option GoError :=
  match parse body with
  | .error err => (Result.zero, some err)
  | .ok doc =>
    let resultType := getResult.resultType resultUrl
    let st := EachWithBreak (getResult.each c resultUrl resultType) 0
      (doc.Find sel_item_box) (Result.zero, false)
    if !st.2 then
      (Result.zero, some ⟨"getResult: failed to parse detail: ".toList ++ doc.Text⟩)
    else (st.1, none)

/-! ## The outside world and the call log -/

/-- A Go `[]byte`. -/
abbrev Bytes := List Nat

/-- An `io.Reader`, given by what `io.ReadAll` returns on it. -/
structure Reader where
  readAll : Except GoError Bytes

/-- The fields of an `http.Response` that the source reads. -/
structure HttpResponse where
  Status : Str
  StatusCode : Nat
  Header : List (Str × Str)

/-- Go `resp.Header.Get(key)`: the first value stored under the key, the
empty string when there is none. -/
def HttpResponse.HeaderGet (resp : HttpResponse) (key : Str) : Str :=
  match resp.Header.find? (fun kv => kv.1 == key) with
  | some kv => kv.2
  | none => []

/-- The field `Solution` of a FlareSolverr response. -/
structure Solution where
  Url : Str
  Response : Str

/-- The argument `image any` of `Search`, by the cases of its type switch. -/
inductive Image where
  | string (img : Str)
  | bytes (img : Bytes)
  | reader (img : Reader)
  | other (typeName : Str)

/-- The answers of the outside world to the calls of one invocation.
`Client.Do` turns `http.ErrUseLastResponse` into a nil error, so an error of
`httpDo` is never that one and line 108 of the source returns it. -/
structure World where
  /-- The result of `os.Open` on a path. -/
  openFile : Str → Except GoError Reader
  /-- The error of `writer.CreateFormFile`. -/
  createFormFile : Option GoError
  /-- The error of `part.Write`. -/
  partWrite : Option GoError
  /-- The error of `writer.Close`. -/
  writerClose : Option GoError
  /-- The error of `http.NewRequestWithContext`. -/
  newRequest : Option GoError
  /-- The result of `hc.Do(req)`. -/
  httpDo : Except GoError HttpResponse
  /-- The value of `time.Now().Format("20060102150405")`. -/
  now : Str
  /-- The error of `SessionsCreate`. -/
  sessionsCreate : Option GoError
  /-- The result of the FlareSolverr `Get` that fetches the color page. -/
  getColor : Except GoError Solution
  /-- The result of the FlareSolverr `Get` that fetches the bovw page. -/
  getBovw : Except GoError Solution
  /-- Whether the goroutine of the color page calls `Get` before the other one. -/
  colorFirst : Bool
  /-- The function `goquery.NewDocumentFromReader` on a body. -/
  parse : Str → Except GoError Document

/-- A call made by the program. -/
inductive Event where
  | fsOpen (path : Str)
  | fsClose (path : Str)
  | readAll
  | httpPost (url : Str)
  | bodyClose
  | sessionsCreate (name : Str)
  | sessionsDestroy (name : Str)
  | flareGet (url : Str) (session : Option Str) (maxTimeout : Nat)
  | getResult (body : Str) (resultUrl : Str)
deriving DecidableEq

/-- Whether the event is a call over the network: the HTTP POST or a call of
the FlareSolverr collaborator. -/
def Event.isNetwork : Event → Bool
  | .httpPost _ => true
  | .sessionsCreate _ => true
  | .sessionsDestroy _ => true
  | .flareGet _ _ _ => true
  | _ => false

/-- Whether the event is an `os.Open`. -/
def Event.isFsOpen : Event → Bool
  | .fsOpen _ => true
  | _ => false

/-- Whether the event is a `SessionsCreate`. -/
def Event.isSessionsCreate : Event → Bool
  | .sessionsCreate _ => true
  | _ => false

/-- Whether the event is a `SessionsDestroy`. -/
def Event.isSessionsDestroy : Event → Bool
  | .sessionsDestroy _ => true
  | _ => false

/-- Whether the event is a call of `getResult`. -/
def Event.isGetResult : Event → Bool
  | .getResult _ _ => true
  | _ => false

/-- Whether the event is a call of the FlareSolverr collaborator. -/
def Event.isCollaborator : Event → Bool
  | .sessionsCreate _ => true
  | .sessionsDestroy _ => true
  | .flareGet _ _ _ => true
  | _ => false

/-- The three values `(color, bovw, err)` that `Search`, `Post` and `Get` return. -/
structure Outcome where
  color : Result
  bovw : Result
  err : Option GoError
deriving DecidableEq

/-- The statement `return Result{}, Result{}, err`. -/
def Outcome.fail (err : GoError) : Outcome :=
  { color := Result.zero, bovw := Result.zero, err := some err }

/-! ## The two flows and the dispatcher -/

/-- Line 120 of `Client.Post`: the bovw URL of the Upload flow. -/
def Post.bovwUrl (colorUrl : Str) : Str :=
  Replace colorUrl "/color/".toList "/bovw/".toList 1

/-- Line 187 of `Client.Get`: the bovw URL of the URL flow. -/
def Get.bovwUrl (colorUrl : Str) : Str :=
  ReplaceAll colorUrl "/color/".toList "/bovw/".toList

/-- Lines 129 to 174 of `Client.Post`: what runs between the creation of the
session and its deferred destruction. -/
def Post.withSession (c : Client) (w : World) (colorUrl bovwUrl sessionName : Str) :
    Outcome × List Event :=
  let evColor := Event.flareGet colorUrl (some sessionName) 60000
  let evBovw := Event.flareGet bovwUrl (some sessionName) 60000
  let fetches := if w.colorFirst then [evColor, evBovw] else [evBovw, evColor]
  let colorFetch : Str × Option GoError :=
    match w.getColor with
    | .error err => ([], some err)
    | .ok sol => (sol.Response, none)
  let bovwFetch : Str × Option GoError :=
    match w.getBovw with
    | .error err => ([], some err)
    | .ok sol => (sol.Response, none)
  match colorFetch.2 with
  | some colorErr => (Outcome.fail colorErr, fetches)
  | none =>
  match bovwFetch.2 with
  | some bovwErr => (Outcome.fail bovwErr, fetches)
  | none =>
  let color := getResult c w.parse colorFetch.1 colorUrl
  match color.2 with
  | some colorErr =>
    (Outcome.fail colorErr, fetches ++ [.getResult colorFetch.1 colorUrl])
  | none =>
  let bovw := getResult c w.parse bovwFetch.1 bovwUrl
  match bovw.2 with
  | some bovwErr =>
    (Outcome.fail bovwErr,
      fetches ++ [.getResult colorFetch.1 colorUrl, .getResult bovwFetch.1 bovwUrl])
  | none =>
    ({ color := { color.1 with ResultUrl := colorUrl },
       bovw := { bovw.1 with ResultUrl := bovwUrl },
       err := none },
      fetches ++ [.getResult colorFetch.1 colorUrl, .getResult bovwFetch.1 bovwUrl])

/-- Lines 112 to 174 of `Client.Post`: what runs between `hc.Do` and the
deferred `resp.Body.Close()`. -/
def Post.withResponse (c : Client) (w : World) (resp : HttpResponse) :
    Outcome × List Event :=
  if resp.StatusCode ≠ 302 then (Outcome.fail ⟨resp.Status⟩, [])
  else
    let colorUrl := resp.HeaderGet "Location".toList
    if colorUrl = [] then (Outcome.fail ⟨"empty location".toList⟩, [])
    else
      let bovwUrl := Post.bovwUrl colorUrl
      let sessionName := "ascii2d_".toList ++ w.now
      match w.sessionsCreate with
      | some err => (Outcome.fail err, [.sessionsCreate sessionName])
      | none =>
        let r := Post.withSession c w colorUrl bovwUrl sessionName
        (r.1, [.sessionsCreate sessionName] ++ r.2 ++ [.sessionsDestroy sessionName])

/-- The method `Client.Post` of the source (the Upload flow). -/
def Post (c : Client) (w : World) (_imgData : Bytes) : Outcome × List Event :=
  match w.createFormFile with
  | some err => (Outcome.fail err, [])
  | none =>
  match w.partWrite with
  | some err => (Outcome.fail err, [])
  | none =>
  match w.writerClose with
  | some err => (Outcome.fail err, [])
  | none =>
  match w.newRequest with
  | some err => (Outcome.fail err, [])
  | none =>
  match w.httpDo with
  | .error err => (Outcome.fail err, [.httpPost (c.Host ++ API_SEARCH_FILE)])
  | .ok resp =>
    let r := Post.withResponse c w resp
    (r.1, [.httpPost (c.Host ++ API_SEARCH_FILE)] ++ r.2 ++ [.bodyClose])

/-- The method `Client.Get` of the source (the URL flow). -/
def Get (c : Client) (w : World) (imgUrl : Str) : Outcome × List Event :=
  let searchUrl := c.Host ++ API_SEARCH_URL ++ "/".toList ++ imgUrl
  let ev1 := Event.flareGet searchUrl none 60000
  match w.getColor with
  | .error err => (Outcome.fail err, [ev1])
  | .ok sol =>
  let colorUrl := sol.Url
  let bovwUrl := Get.bovwUrl colorUrl
  let colorBody := sol.Response
  let ev2 := Event.flareGet bovwUrl none 60000
  match w.getBovw with
  | .error err => (Outcome.fail err, [ev1, ev2])
  | .ok sol2 =>
  let bovwBody := sol2.Response
  let color := getResult c w.parse colorBody colorUrl
  match color.2 with
  | some err => (Outcome.fail err, [ev1, ev2, .getResult colorBody colorUrl])
  | none =>
  let bovw := getResult c w.parse bovwBody bovwUrl
  match bovw.2 with
  | some err =>
    (Outcome.fail err, [ev1, ev2, .getResult colorBody colorUrl, .getResult bovwBody bovwUrl])
  | none =>
    ({ color := { color.1 with ResultUrl := colorUrl },
       bovw := { bovw.1 with ResultUrl := bovwUrl },
       err := none },
      [ev1, ev2, .getResult colorBody colorUrl, .getResult bovwBody bovwUrl])

/-- The case `io.Reader` of the type switch of `Search`. -/
def Search.reader (c : Client) (w : World) (img : Reader) : Outcome × List Event :=
  match img.readAll with
  | .error err => (Outcome.fail err, [.readAll])
  | .ok imgData =>
    let r := Post c w imgData
    (r.1, [.readAll] ++ r.2)

/-- The method `Client.Search` of the source.  The recursive call on the
opened file reaches the case `io.Reader`, which is `Search.reader`. -/
def Search (c : Client) (w : World) (image : Image) : Outcome × List Event :=
  match image with
  | .string img =>
    if HasPrefix img "http".toList then Get c w img
    else
      match w.openFile img with
      | .error err => (Outcome.fail err, [.fsOpen img])
      | .ok f =>
        let r := Search.reader c w f
        (r.1, [.fsOpen img] ++ r.2 ++ [.fsClose img])
  | .bytes img => Post c w img
  | .reader img => Search.reader c w img
  | .other typeName => (Outcome.fail ⟨"unsupported image type: ".toList ++ typeName⟩, [])

/-! ## Auxiliary predicates of the proofs -/

/-- Whether a container has a first detail link with non-empty text. -/
def titled (box : SelNode) : Bool :=
  match box.Find sel_detail_box_a with
  | [] => false
  | link0 :: _ => nodeText link0.node != []

/-- The record `getResult` builds from a container whose detail links are
`link0 :: rest`. -/
def candidate (c : Client) (resultUrl : Str) (box link0 : SelNode) (rest : Selection) :
    Result :=
  { Title := nodeText link0.node,
    Author := (match rest with | [] => [] | a :: _ => nodeText a.node),
    Url := (getAttributeValue "href".toList link0.node).1,
    AuthorUrl := (match rest with | [] => [] | a :: _ => (getAttributeValue "href".toList a.node).1),
    Thumbnail := c.Host ++ ((box.Find sel_image_box_img).Attr "src".toList).1,
    ResultUrl := resultUrl,
    ResultType := getResult.resultType resultUrl,
    Success := true }

/-- A successful outcome: both records are marked successful and carry their
page URL and the result type derived from it. -/
def Outcome.isPair (o : Outcome) (colorUrl bovwUrl : Str) : Prop :=
  o.err = none ∧ o.color.Success = true ∧ o.bovw.Success = true ∧
  o.color.ResultUrl = colorUrl ∧ o.bovw.ResultUrl = bovwUrl ∧
  o.color.ResultType = getResult.resultType colorUrl ∧
  o.bovw.ResultType = getResult.resultType bovwUrl

/-! ## Sample inputs -/

/-- A result page with one `.item-box` entry: a thumbnail, a title link and
an author link. -/
def samplePage : Document :=
  ⟨[.element "html".toList [] [.element "body".toList [] [
    .element "div".toList [("class".toList, "row item-box".toList)] [
      .element "div".toList [("class".toList, "image-box".toList)] [
        .element "img".toList [("src".toList, "/thumbnail/1.jpg".toList)] []],
      .element "div".toList [("class".toList, "detail-box gray-link".toList)] [
        .element "h6".toList [] [
          .element "a".toList [("href".toList, "https://p.example/1".toList)]
            [.text "Title".toList],
          .text " ".toList,
          .element "a".toList [("href".toList, "https://p.example/u/2".toList)]
            [.text "Author".toList]]]]]]]⟩

/-- The record that `getResult` extracts from `samplePage` for the URL
`https://ascii2d.net/search/color/XYZ` and the canonical host. -/
def sampleResult : Result :=
  { Title := "Title".toList, Author := "Author".toList,
    Url := "https://p.example/1".toList, AuthorUrl := "https://p.example/u/2".toList,
    Thumbnail := "https://ascii2d.net/thumbnail/1.jpg".toList,
    ResultUrl := "https://ascii2d.net/search/color/XYZ".toList,
    ResultType := "color".toList, Success := true }

/-- The client for the canonical host. -/
def sampleClient : Client := NewClient [] 0

/-- A world in which the POST is answered `302 Found` with the given
`Location`, every collaborator call succeeds, the collaborator resolves the
search URL to the given `Location` too, every body parses to `samplePage`
and no local file exists. -/
def sampleWorld (location : Str) : World :=
  { openFile := fun _ => .error ⟨"open: no such file or directory".toList⟩,
    createFormFile := none,
    partWrite := none,
    writerClose := none,
    newRequest := none,
    httpDo := .ok { Status := "302 Found".toList, StatusCode := 302,
                    Header := [("Location".toList, location)] },
    now := "20240102030405".toList,
    sessionsCreate := none,
    getColor := .ok { Url := location, Response := "<html>color</html>".toList },
    getBovw := .ok { Url := Post.bovwUrl location, Response := "<html>bovw</html>".toList },
    colorFirst := true,
    parse := fun _ => .ok samplePage }

/-- The sample world with the POST answered `500 Internal Server Error`. -/
def statusWorld : World :=
  { sampleWorld "https://ascii2d.net/search/color/XYZ".toList with
    httpDo := .ok { Status := "500 Internal Server Error".toList, StatusCode := 500,
                    Header := [] } }

/-- The sample world with both page fetches failing. -/
def fetchErrorWorld : World :=
  { sampleWorld "https://ascii2d.net/search/color/XYZ".toList with
    getColor := .error ⟨"color: timeout".toList⟩,
    getBovw := .error ⟨"bovw: timeout".toList⟩ }

/-! ## Facts about the string functions -/

theorem isPrefixOf_append_self (sub s : Str) : sub.isPrefixOf (sub ++ s) = true := by
  induction sub with
  | nil => simp [List.isPrefixOf]
  | cons a t ih => simp [List.isPrefixOf, ih]

theorem occurrences_append_ge (sub x s : Str) :
    occurrences sub s ≤ occurrences sub (x ++ s) := by
  induction x with
  | nil => simp
  | cons a t ih =>
    show occurrences sub s ≤ occurrences sub (a :: (t ++ s))
    rw [occurrences]
    omega

theorem occurrences_self_append_pos (sub s : Str) (hsub : sub ≠ []) :
    1 ≤ occurrences sub (sub ++ s) := by
  cases sub with
  | nil => exact absurd rfl hsub
  | cons a t =>
    have h := isPrefixOf_append_self (a :: t) s
    show 1 ≤ occurrences (a :: t) (a :: (t ++ s))
    rw [occurrences]
    rw [List.cons_append] at h
    simp [h]

theorem Index_none_of_occurrences_zero (sub : Str) (hsub : sub ≠ []) :
    ∀ s : Str, occurrences sub s = 0 → Index s sub = none := by
  intro s
  induction s with
  | nil => intro _; simp [Index, hsub]
  | cons a t ih =>
    intro h
    rw [occurrences] at h
    have h1 : sub.isPrefixOf (a :: t) = false := by
      by_contra hc
      simp only [Bool.not_eq_false] at hc
      simp [hc] at h
    have h2 : occurrences sub t = 0 := by omega
    simp [Index, h1, ih h2]

/-- When `sub` occurs exactly once in `p ++ sub ++ s`, that occurrence is
the one at position `len(p)`, and `sub` does not occur in `s`. -/
theorem Index_of_single_occurrence (sub : Str) (hsub : sub ≠ []) (s : Str) :
    ∀ p : Str, occurrences sub (p ++ sub ++ s) = 1 →
      Index (p ++ sub ++ s) sub = some p.length ∧ occurrences sub s = 0 := by
  intro p
  induction p with
  | nil =>
    intro h
    have hp := isPrefixOf_append_self sub s
    cases hsubs : sub ++ s with
    | nil => simp [List.append_eq_nil, hsub] at hsubs
    | cons a t =>
      simp only [List.nil_append, hsubs] at h ⊢
      rw [hsubs] at hp
      rw [occurrences] at h
      simp only [hp, if_true] at h
      have ht0 : occurrences sub t = 0 := by omega
      constructor
      · simp [Index, hp]
      · cases sub with
        | nil => exact absurd rfl hsub
        | cons b u =>
          have hts : t = u ++ s := by
            simp only [List.cons_append, List.cons.injEq] at hsubs
            exact hsubs.2.symm
          have := occurrences_append_ge (b :: u) u s
          rw [← hts] at this
          omega
  | cons a t ih =>
    intro h
    have hge : 1 ≤ occurrences sub (t ++ sub ++ s) := by
      have h1 := occurrences_self_append_pos sub s hsub
      have h2 := occurrences_append_ge sub t (sub ++ s)
      rw [← List.append_assoc] at h2
      omega
    simp only [List.cons_append] at h ⊢
    rw [occurrences] at h
    have h1 : sub.isPrefixOf (a :: (t ++ sub ++ s)) = false := by
      by_contra hc
      simp only [Bool.not_eq_false] at hc
      simp only [hc, if_true] at h
      omega
    simp only [h1, Bool.false_eq_true, if_false, Nat.zero_add] at h
    obtain ⟨hi, ho⟩ := ih h
    refine ⟨?_, ho⟩
    rw [Index]
    simp only [h1, hi, Bool.false_eq_true, if_false, Option.map_some', List.length_cons]

theorem Index_nil (sub : Str) (hsub : sub ≠ []) : Index [] sub = none := by
  simp [Index, hsub]

/-- The fuel of `countLoop` is never used up: for a non-empty `sub` any two
amounts of fuel above the length of `s` give the same count, so
`len(s) + 1` rounds are enough. -/
theorem countLoop_fuel (sub : Str) (hsub : sub ≠ []) :
    ∀ (fuel1 fuel2 : Nat) (s : Str), s.length < fuel1 → s.length < fuel2 →
      countLoop sub fuel1 s = countLoop sub fuel2 s := by
  intro fuel1
  induction fuel1 with
  | zero => intro fuel2 s h1; omega
  | succ f1 ih =>
    intro fuel2 s h1 h2
    cases fuel2 with
    | zero => omega
    | succ f2 =>
      rw [countLoop, countLoop]
      cases hI : Index s sub with
      | none => rfl
      | some i =>
        simp only
        have hs : s ≠ [] := by
          intro h0
          rw [h0, Index_nil sub hsub] at hI
          exact Option.noConfusion hI
        have hpos : 0 < s.length := List.length_pos.mpr hs
        have hsubpos : 0 < sub.length := List.length_pos.mpr hsub
        have hd : (s.drop (i + sub.length)).length < s.length := by
          rw [List.length_drop]; omega
        rw [ih f2 (s.drop (i + sub.length)) (by omega) (by omega)]

theorem countLoop_of_Index_none (sub s : Str) (fuel : Nat) (h : Index s sub = none) :
    countLoop sub fuel s = 0 := by
  cases fuel with
  | zero => rfl
  | succ n => simp [countLoop, h]

theorem drop_behind_occurrence (p sub s : Str) :
    (p ++ sub ++ s).drop (p.length + sub.length) = s := by
  have : p.length + sub.length = (p ++ sub).length := by simp
  rw [this, List.drop_left]

theorem take_before_occurrence (p sub s : Str) :
    (p ++ sub ++ s).take p.length = p := by
  rw [List.append_assoc, List.take_left]

/-- With a single occurrence of a non-empty `old`, replacing the first
occurrence and replacing all occurrences give the same string. -/
theorem Replace_single_occurrence (old new : Str) (hold : old ≠ []) (hne : old ≠ new)
    (p s : Str) (h : occurrences old (p ++ old ++ s) = 1) :
    Replace (p ++ old ++ s) old new 1 = p ++ new ++ s ∧
    ReplaceAll (p ++ old ++ s) old new = p ++ new ++ s := by
  obtain ⟨hi, ho⟩ := Index_of_single_occurrence old hold s p h
  have hs : Index s old = none := Index_none_of_occurrences_zero old hold s ho
  have hlen : old.length ≠ 0 := by
    intro h0; exact hold (List.length_eq_zero.mp h0)
  have hcount : Count (p ++ old ++ s) old = 1 := by
    unfold Count
    rw [if_neg hlen, countLoop]
    simp only [hi]
    rw [drop_behind_occurrence, countLoop_of_Index_none old s _ hs]
  have hloop : replaceLoop old new 1 0 (p ++ old ++ s) = p ++ new ++ s := by
    rw [replaceLoop]
    simp only [if_neg hlen, hi]
    rw [drop_behind_occurrence, take_before_occurrence, replaceLoop]
  simp only [List.append_assoc] at hcount hloop
  constructor
  · unfold Replace
    simp [hne, hcount, hloop]
  · unfold ReplaceAll Replace
    simp [hne, hcount, hloop]

theorem Contains_append_mid (a new b : Str) : Contains (a ++ new ++ b) new = true := by
  unfold Contains
  induction a with
  | nil =>
    have hp := isPrefixOf_append_self new b
    simp only [List.nil_append]
    cases hnb : new ++ b with
    | nil =>
      have : new = [] := (List.append_eq_nil.mp hnb).1
      simp [Index, this]
    | cons x y =>
      rw [hnb] at hp
      simp [Index, hp]
  | cons x t ih =>
    simp only [List.cons_append]
    rw [Index]
    split
    · rfl
    · cases hI : Index (t ++ new ++ b) new with
      | none => rw [hI] at ih; simp at ih
      | some k => simp

theorem Count_pos_of_Contains (s sub : Str) (h : Contains s sub = true) : 0 < Count s sub := by
  unfold Count
  split
  · omega
  · unfold Contains at h
    cases hI : Index s sub with
    | none => rw [hI] at h; simp at h
    | some j => rw [countLoop]; simp only [hI]; omega

/-- A string that contains `old` contains `new` after `Replace`, whether the
first occurrence or all occurrences are replaced. -/
theorem Contains_Replace (s old new : Str) (n : Int) (hn : n = 1 ∨ n < 0) (hold : old ≠ [])
    (h : Contains s old = true) : Contains (Replace s old new n) new = true := by
  by_cases hne : old = new
  · have : Replace s old new n = s := by simp [Replace, hne]
    rw [this, ← hne]; exact h
  · have hc := Count_pos_of_Contains s old h
    have hlen : old.length ≠ 0 := by
      intro h0; exact hold (List.length_eq_zero.mp h0)
    have hn0 : n ≠ 0 := by omega
    obtain ⟨k, hk⟩ : ∃ k, (if n < 0 ∨ ((Count s old : Nat) : Int) < n then Count s old else n.toNat) = k + 1 := by
      split
      · exact ⟨Count s old - 1, by omega⟩
      · exact ⟨n.toNat - 1, by omega⟩
    unfold Replace
    simp only [hne, hn0, or_self, if_false]
    rw [if_neg (by omega), hk, replaceLoop]
    simp only [if_neg hlen]
    unfold Contains at h
    cases hI : Index s old with
    | none => rw [hI] at h; simp at h
    | some j =>
      simp only
      exact Contains_append_mid _ _ _

theorem dropWhile_append_stop (P : Char → Bool) (ys : Str) (y : Char) (hy : P y = false) :
    ∀ xs : Str, ∃ zs, (xs ++ y :: ys).dropWhile P = zs ++ y :: ys := by
  intro xs
  induction xs with
  | nil => exact ⟨[], by simp [List.dropWhile, hy]⟩
  | cons a t ih =>
    obtain ⟨zs, hz⟩ := ih
    cases ha : P a with
    | true => exact ⟨zs, by simp [List.dropWhile, ha, hz]⟩
    | false => exact ⟨a :: t, by simp [List.dropWhile, ha]⟩

theorem dropWhile_head (P : Char → Bool) :
    ∀ xs : Str, ∀ a t, xs.dropWhile P = a :: t → P a = false := by
  intro xs
  induction xs with
  | nil => intro a t h; simp at h
  | cons x r ih =>
    intro a t h
    cases hx : P x with
    | true => simp [List.dropWhile, hx] at h; exact ih a t h
    | false =>
      simp [List.dropWhile, hx] at h
      rw [← h.1]; exact hx

theorem HasSuffix_TrimRight (s : Str) (c : Char) : HasSuffix (TrimRight s c) [c] = false := by
  unfold HasSuffix TrimRight
  simp only [List.reverse_reverse, List.reverse_cons, List.reverse_nil, List.nil_append]
  cases hd : s.reverse.dropWhile (fun x => x == c) with
  | nil => simp [List.isPrefixOf]
  | cons a t =>
    have := dropWhile_head (fun x => x == c) s.reverse a t hd
    simp only [beq_eq_false_iff_ne, ne_eq] at this
    simp [List.isPrefixOf]
    exact fun h => this h.symm

theorem HasPrefix_http_TrimRight (s : Str) (h : HasPrefix s "http".toList = true) :
    HasPrefix (TrimRight s '/') "http".toList = true := by
  unfold HasPrefix at h ⊢
  obtain ⟨r, rfl⟩ := List.isPrefixOf_iff_prefix.mp h
  have hrev : ("http".toList ++ r).reverse = r.reverse ++ 'p' :: ['t', 't', 'h'] := by
    simp [List.reverse_append]
  obtain ⟨zs, hz⟩ := dropWhile_append_stop (fun x => x == '/') ['t', 't', 'h'] 'p'
    (by decide) r.reverse
  unfold TrimRight
  rw [hrev, hz]
  simp [List.reverse_append, List.isPrefixOf]
/-! ## Extraction: `getResult` -/

theorem getAttributeValue_absent (key : Str) (n : HtmlNode)
    (h : (getAttributeValue key n).2 = false) : (getAttributeValue key n).1 = [] := by
  cases n with
  | text d => rfl
  | element t a cs =>
    simp only [getAttributeValue] at h ⊢
    cases hf : a.find? (fun kv => kv.1 == key) with
    | none => rfl
    | some kv => rw [hf] at h; simp at h

theorem each_links (c : Client) (resultUrl : Str) (i : Nat) (box link0 : SelNode)
    (rest : Selection) (st : Result × Bool) (h : box.Find sel_detail_box_a = link0 :: rest) :
    getResult.each c resultUrl (getResult.resultType resultUrl) i box st =
      ((candidate c resultUrl box link0 rest, nodeText link0.node != []),
        !(nodeText link0.node != [])) := by
  have hattr : ∀ (key : Str) (n : HtmlNode),
      (if (getAttributeValue key n).2 = true then (getAttributeValue key n).1 else [])
        = (getAttributeValue key n).1 := by
    intro key n
    cases hb : (getAttributeValue key n).2 with
    | true => simp
    | false => simp [getAttributeValue_absent key n hb]
  cases rest with
  | nil =>
    simp [getResult.each, h, Selection.Length, Selection.Eq, Selection.Text,
      Selection.AttrOr, Selection.Attr, candidate, hattr]
  | cons a as =>
    simp [getResult.each, h, Selection.Length, Selection.Eq, Selection.Text,
      Selection.AttrOr, Selection.Attr, candidate, hattr]

theorem each_no_links (c : Client) (resultUrl : Str) (i : Nat) (box : SelNode)
    (st : Result × Bool) (h : box.Find sel_detail_box_a = []) :
    getResult.each c resultUrl (getResult.resultType resultUrl) i box st = (st, true) := by
  simp [getResult.each, h, Selection.Length]

/-- The scan of `getResult` over the containers: it ends with `found` set
exactly when some container is titled, and then the record is the candidate
of the first titled container. -/
theorem scan_spec (c : Client) (resultUrl : Str) (boxes : Selection) :
    ∀ (i : Nat) (st : Result × Bool), st.2 = false →
      ((EachWithBreak (getResult.each c resultUrl (getResult.resultType resultUrl))
          i boxes st).2 = true ∧
        ∃ pre box post link0 rest, boxes = pre ++ box :: post ∧
          (∀ b ∈ pre, titled b = false) ∧
          box.Find sel_detail_box_a = link0 :: rest ∧ nodeText link0.node ≠ [] ∧
          (EachWithBreak (getResult.each c resultUrl (getResult.resultType resultUrl))
            i boxes st).1 = candidate c resultUrl box link0 rest)
      ∨ ((EachWithBreak (getResult.each c resultUrl (getResult.resultType resultUrl))
          i boxes st).2 = false ∧ ∀ b ∈ boxes, titled b = false) := by
  induction boxes with
  | nil =>
    intro i st hst
    right
    simp [EachWithBreak, hst]
  | cons b bs ih =>
    intro i st hst
    cases hl : b.Find sel_detail_box_a with
    | nil =>
      have htb : titled b = false := by simp [titled, hl]
      rw [EachWithBreak, each_no_links c resultUrl i b st hl]
      simp only [if_true]
      rcases ih (i + 1) st hst with ⟨hf, pre, box, post, link0, rest, hb, hpre, hbox, ht, hres⟩ | ⟨hf, hall⟩
      · left
        refine ⟨hf, b :: pre, box, post, link0, rest, by simp [hb], ?_, hbox, ht, hres⟩
        intro x hx
        rcases List.mem_cons.mp hx with rfl | hx
        · exact htb
        · exact hpre x hx
      · right
        refine ⟨hf, ?_⟩
        intro x hx
        rcases List.mem_cons.mp hx with rfl | hx
        · exact htb
        · exact hall x hx
    | cons link0 rest =>
      rw [EachWithBreak, each_links c resultUrl i b link0 rest st hl]
      by_cases ht : nodeText link0.node = []
      · have htb : titled b = false := by simp [titled, hl, ht]
        simp only [ht, bne_self_eq_false, Bool.not_false, if_true]
        rcases ih (i + 1) (candidate c resultUrl b link0 rest, false) rfl with
          ⟨hf, pre, box, post, l0, r0, hb, hpre, hbox, ht0, hres⟩ | ⟨hf, hall⟩
        · left
          refine ⟨hf, b :: pre, box, post, l0, r0, by simp [hb], ?_, hbox, ht0, hres⟩
          intro x hx
          rcases List.mem_cons.mp hx with rfl | hx
          · exact htb
          · exact hpre x hx
        · right
          refine ⟨hf, ?_⟩
          intro x hx
          rcases List.mem_cons.mp hx with rfl | hx
          · exact htb
          · exact hall x hx
      · left
        have hne : (nodeText link0.node != []) = true := by simpa using ht
        simp only [hne, Bool.not_true]
        refine ⟨by simp, [], b, bs, link0, rest, by simp, by simp, hl, ht, by simp⟩

/-- C1: when `getResult` succeeds, the body parsed to a document and the
record is built from the first `.item-box` container, in document order,
whose `.detail-box a` links are not empty and whose first link has non-empty
text; the containers before it have no link or a first link with empty text.
Title and Url are the text and the href of the first link, Author and
AuthorUrl those of the second link (empty without a second link, and the
href empty when the attribute is absent), Thumbnail is the host followed by
the `src` of the first `.image-box img` (the host alone when there is no
such attribute), and Success is true. -/
theorem getResult_success_first_titled_box (c : Client)
    (parse : Str → Except GoError Document) (body resultUrl : Str) (res : Result)
    (hres : getResult c parse body resultUrl = (res, none)) :
    ∃ doc pre box post link0 rest,
      parse body = .ok doc ∧
      doc.Find sel_item_box = pre ++ box :: post ∧
      (∀ b ∈ pre, b.Find sel_detail_box_a = [] ∨
        ∃ l ls, b.Find sel_detail_box_a = l :: ls ∧ nodeText l.node = []) ∧
      box.Find sel_detail_box_a = link0 :: rest ∧
      nodeText link0.node ≠ [] ∧
      res.Title = nodeText link0.node ∧
      res.Url = (getAttributeValue "href".toList link0.node).1 ∧
      ((getAttributeValue "href".toList link0.node).2 = false → res.Url = []) ∧
      res.Author = (match rest with | [] => [] | a :: _ => nodeText a.node) ∧
      res.AuthorUrl =
        (match rest with | [] => [] | a :: _ => (getAttributeValue "href".toList a.node).1) ∧
      (∀ a as, rest = a :: as → (getAttributeValue "href".toList a.node).2 = false →
        res.AuthorUrl = []) ∧
      res.Thumbnail = c.Host ++ ((box.Find sel_image_box_img).Attr "src".toList).1 ∧
      (((box.Find sel_image_box_img).Attr "src".toList).2 = false → res.Thumbnail = c.Host) ∧
      res.Success = true := by
  unfold getResult at hres
  cases hp : parse body with
  | error e => rw [hp] at hres; simp at hres
  | ok doc =>
    rw [hp] at hres
    simp only at hres
    rcases scan_spec c resultUrl (doc.Find sel_item_box) 0 (Result.zero, false) rfl with
      ⟨hf, pre, box, post, link0, rest, hb, hpre, hbox, ht, hcand⟩ | ⟨hf, _⟩
    · rw [hf] at hres
      simp only [Bool.not_true, Bool.false_eq_true, if_false, Prod.mk.injEq, and_true] at hres
      rw [hcand] at hres
      subst hres
      refine ⟨doc, pre, box, post, link0, rest, rfl, hb, ?_, hbox, ht, rfl, rfl, ?_, rfl, rfl,
        ?_, ?_, ?_, rfl⟩
      · intro b hbm
        have hb2 := hpre b hbm
        unfold titled at hb2
        cases hl : b.Find sel_detail_box_a with
        | nil => left; rfl
        | cons l ls =>
          right
          rw [hl] at hb2
          exact ⟨l, ls, rfl, by simpa using hb2⟩
      · intro h
        exact getAttributeValue_absent _ _ h
      · intro a as hr h
        subst hr
        exact getAttributeValue_absent _ _ h
      · rfl
      · intro h
        have h2 : ((box.Find sel_image_box_img).Attr "src".toList).1 = [] := by
          cases hi : box.Find sel_image_box_img with
          | nil => rfl
          | cons img imgs =>
            rw [hi] at h
            exact getAttributeValue_absent _ _ h
        show c.Host ++ ((box.Find sel_image_box_img).Attr "src".toList).1 = c.Host
        rw [h2, List.append_nil]
    · rw [hf] at hres
      simp at hres

/-- C2: `getResult` returns either an error with the zero-valued record, or
no error with a record whose Success is true and whose Title is not empty;
and it returns an error exactly when the body parses to no document with an
`.item-box` container whose first detail link has non-empty text. -/
theorem getResult_error_or_titled (c : Client)
    (parse : Str → Except GoError Document) (body resultUrl : Str) :
    (((getResult c parse body resultUrl).2 ≠ none ∧
        (getResult c parse body resultUrl).1 = Result.zero) ∨
      ((getResult c parse body resultUrl).2 = none ∧
        (getResult c parse body resultUrl).1.Success = true ∧
        (getResult c parse body resultUrl).1.Title ≠ [])) ∧
    ((getResult c parse body resultUrl).2 ≠ none ↔
      ∀ doc, parse body = .ok doc → ∀ box ∈ doc.Find sel_item_box,
        ¬ ∃ link0 rest, box.Find sel_detail_box_a = link0 :: rest ∧ nodeText link0.node ≠ []) := by
  unfold getResult
  cases hp : parse body with
  | error e => simp
  | ok doc =>
    simp only
    rcases scan_spec c resultUrl (doc.Find sel_item_box) 0 (Result.zero, false) rfl with
      ⟨hf, pre, box, post, link0, rest, hb, hpre, hbox, ht, hcand⟩ | ⟨hf, hall⟩
    · rw [hf]
      simp only [Bool.not_true, Bool.false_eq_true, if_false, hcand]
      refine ⟨Or.inr ⟨trivial, rfl, ht⟩, ?_⟩
      constructor
      · intro h; exact absurd rfl h
      · intro h
        exfalso
        refine h doc rfl box ?_ ⟨link0, rest, hbox, ht⟩
        rw [hb]; simp
    · rw [hf]
      simp only [Bool.not_false, if_true]
      refine ⟨Or.inl ⟨by simp, trivial⟩, ?_⟩
      constructor
      · intro _ doc2 hd box hbm
        cases hd
        rintro ⟨link0, rest, hbox, ht⟩
        have := hall box hbm
        simp [titled, hbox, ht] at this
      · intro _; simp

/-- Witness of C1: on `samplePage` the record is `sampleResult`. -/
theorem getResult_success_first_titled_box_witness :
    getResult sampleClient (fun _ => .ok samplePage) []
      "https://ascii2d.net/search/color/XYZ".toList = (sampleResult, none) ∧
    ∃ doc pre box post link0 rest,
      (fun _ => Except.ok samplePage : Str → Except GoError Document) [] = .ok doc ∧
      doc.Find sel_item_box = pre ++ box :: post ∧
      (∀ b ∈ pre, b.Find sel_detail_box_a = [] ∨
        ∃ l ls, b.Find sel_detail_box_a = l :: ls ∧ nodeText l.node = []) ∧
      box.Find sel_detail_box_a = link0 :: rest ∧
      nodeText link0.node ≠ [] ∧
      sampleResult.Title = nodeText link0.node ∧
      sampleResult.Url = (getAttributeValue "href".toList link0.node).1 ∧
      ((getAttributeValue "href".toList link0.node).2 = false → sampleResult.Url = []) ∧
      sampleResult.Author = (match rest with | [] => [] | a :: _ => nodeText a.node) ∧
      sampleResult.AuthorUrl =
        (match rest with | [] => [] | a :: _ => (getAttributeValue "href".toList a.node).1) ∧
      (∀ a as, rest = a :: as → (getAttributeValue "href".toList a.node).2 = false →
        sampleResult.AuthorUrl = []) ∧
      sampleResult.Thumbnail =
        sampleClient.Host ++ ((box.Find sel_image_box_img).Attr "src".toList).1 ∧
      (((box.Find sel_image_box_img).Attr "src".toList).2 = false →
        sampleResult.Thumbnail = sampleClient.Host) ∧
      sampleResult.Success = true :=
  ⟨by decide,
    getResult_success_first_titled_box sampleClient (fun _ => .ok samplePage) []
      "https://ascii2d.net/search/color/XYZ".toList sampleResult (by decide)⟩

/-! ## The bovw URL -/

/-- C9: for a color URL `p ++ "/color/" ++ s` in which `/color/` occurs
exactly once, overlapping occurrences counted, the bovw URL of the Upload
flow (first occurrence replaced) and the bovw URL of the URL flow (all
occurrences replaced) are both `p ++ "/bovw/" ++ s`. -/
theorem bovwUrl_single_color_segment (p s : Str)
    (h : occurrences "/color/".toList (p ++ "/color/".toList ++ s) = 1) :
    Post.bovwUrl (p ++ "/color/".toList ++ s) = p ++ "/bovw/".toList ++ s ∧
    Get.bovwUrl (p ++ "/color/".toList ++ s) = p ++ "/bovw/".toList ++ s :=
  Replace_single_occurrence "/color/".toList "/bovw/".toList (by decide) (by decide) p s h

/-- Witness of C9: `https://x/search/color/abc` gives `https://x/search/bovw/abc`. -/
theorem bovwUrl_single_color_segment_witness :
    occurrences "/color/".toList ("https://x/search".toList ++ "/color/".toList ++ "abc".toList) = 1 ∧
    Post.bovwUrl ("https://x/search".toList ++ "/color/".toList ++ "abc".toList)
      = "https://x/search".toList ++ "/bovw/".toList ++ "abc".toList ∧
    Get.bovwUrl ("https://x/search".toList ++ "/color/".toList ++ "abc".toList)
      = "https://x/search".toList ++ "/bovw/".toList ++ "abc".toList :=
  ⟨by decide, bovwUrl_single_color_segment "https://x/search".toList "abc".toList (by decide)⟩

/-! ## The host of a new client -/

/-- C10 as stated fails: the override host `httpfoo` is not empty and the
host of the new client, `httpfoo`, begins with neither `http://` nor
`https://`. -/
theorem NewClient_host_scheme_counterexample :
    "httpfoo".toList ≠ [] ∧
    (NewClient "httpfoo".toList 0).Host = "httpfoo".toList ∧
    ¬ (HasPrefix (NewClient "httpfoo".toList 0).Host "http://".toList = true ∨
       HasPrefix (NewClient "httpfoo".toList 0).Host "https://".toList = true) := by
  decide

/-- C10, amended: the host of `NewClient h _` is the canonical host when `h`
is empty; otherwise it is `h`, with `https://` put in front when `h` does not
begin with `http`, with the trailing slashes removed: it begins with `http`
and does not end with `/`. -/
theorem NewClient_host_normalized (h : Str) (fsClient : Nat) :
    (h = [] → (NewClient h fsClient).Host = API_HOST) ∧
    (h ≠ [] →
      (HasPrefix h "http".toList = true → (NewClient h fsClient).Host = TrimRight h '/') ∧
      (HasPrefix h "http".toList = false →
        (NewClient h fsClient).Host = TrimRight ("https://".toList ++ h) '/') ∧
      HasPrefix (NewClient h fsClient).Host "http".toList = true ∧
      HasSuffix (NewClient h fsClient).Host "/".toList = false) := by
  constructor
  · intro h0
    simp [NewClient, h0]
  · intro hne
    cases hp : HasPrefix h "http".toList with
    | true =>
      have hh : (NewClient h fsClient).Host = TrimRight h '/' := by
        simp only [NewClient, if_neg hne, hp, Bool.not_true, Bool.false_eq_true, if_false]
      refine ⟨fun _ => hh, fun hc => by simp at hc, ?_, ?_⟩
      · rw [hh]; exact HasPrefix_http_TrimRight h hp
      · rw [hh]; exact HasSuffix_TrimRight h '/'
    | false =>
      have hh : (NewClient h fsClient).Host = TrimRight ("https://".toList ++ h) '/' := by
        simp only [NewClient, if_neg hne, hp, Bool.not_false, if_true]
      refine ⟨fun hc => by simp at hc, fun _ => hh, ?_, ?_⟩
      · rw [hh]
        apply HasPrefix_http_TrimRight
        simp [HasPrefix, List.isPrefixOf]
      · rw [hh]; exact HasSuffix_TrimRight _ '/'

/-- Witness of the amended C10 on the override host `ascii2d.net/`. -/
theorem NewClient_host_normalized_witness :
    "ascii2d.net/".toList ≠ [] ∧ HasPrefix "ascii2d.net/".toList "http".toList = false ∧
    (NewClient "ascii2d.net/".toList 0).Host = TrimRight ("https://".toList ++ "ascii2d.net/".toList) '/' ∧
    HasPrefix (NewClient "ascii2d.net/".toList 0).Host "http".toList = true ∧
    HasSuffix (NewClient "ascii2d.net/".toList 0).Host "/".toList = false :=
  ⟨by decide, by decide,
    ((NewClient_host_normalized "ascii2d.net/".toList 0).2 (by decide)).2.1 (by decide),
    ((NewClient_host_normalized "ascii2d.net/".toList 0).2 (by decide)).2.2.1,
    ((NewClient_host_normalized "ascii2d.net/".toList 0).2 (by decide)).2.2.2⟩

/-! ## The flows -/

theorem getResult_shape (c : Client) (parse : Str → Except GoError Document)
    (body resultUrl : Str) :
    (∃ e, getResult c parse body resultUrl = (Result.zero, some e)) ∨
    (∃ r, getResult c parse body resultUrl = (r, none) ∧ r.Success = true ∧
      r.ResultUrl = resultUrl ∧ r.ResultType = getResult.resultType resultUrl) := by
  unfold getResult
  cases hp : parse body with
  | error e => left; exact ⟨e, rfl⟩
  | ok doc =>
    simp only
    rcases scan_spec c resultUrl (doc.Find sel_item_box) 0 (Result.zero, false) rfl with
      ⟨hf, pre, box, post, link0, rest, hb, hpre, hbox, ht, hcand⟩ | ⟨hf, hall⟩
    · right
      rw [hf]
      simp only [Bool.not_true, Bool.false_eq_true, if_false, hcand]
      exact ⟨_, rfl, rfl, rfl, rfl⟩
    · left
      rw [hf]
      simp only [Bool.not_false, if_true]
      exact ⟨_, rfl⟩

theorem withSession_outcome (c : Client) (w : World) (colorUrl bovwUrl name : Str) :
    (∃ e, (Post.withSession c w colorUrl bovwUrl name).1 = Outcome.fail e) ∨
    (Post.withSession c w colorUrl bovwUrl name).1.isPair colorUrl bovwUrl := by
  unfold Post.withSession
  cases hc : w.getColor with
  | error e => left; exact ⟨e, rfl⟩
  | ok solc =>
    cases hb : w.getBovw with
    | error e => left; exact ⟨e, rfl⟩
    | ok solb =>
      simp only
      rcases getResult_shape c w.parse solc.Response colorUrl with ⟨e, he⟩ | ⟨r, hr, h1, h2, h3⟩
      · left; rw [he]; exact ⟨e, rfl⟩
      · rw [hr]
        simp only
        rcases getResult_shape c w.parse solb.Response bovwUrl with ⟨e, he⟩ | ⟨r2, hr2, g1, g2, g3⟩
        · left; rw [he]; exact ⟨e, rfl⟩
        · right
          rw [hr2]
          exact ⟨rfl, h1, g1, rfl, rfl, h3, g3⟩

theorem withSession_trace (c : Client) (w : World) (colorUrl bovwUrl name : Str) :
    ∀ e ∈ (Post.withSession c w colorUrl bovwUrl name).2,
      (∃ u, e = .flareGet u (some name) 60000) ∨ (∃ b u, e = .getResult b u) := by
  unfold Post.withSession
  intro e he
  cases hcf : w.colorFirst <;> cases hc : w.getColor <;> cases hb : w.getBovw <;>
    simp only [hcf, hc, hb] at he <;>
    (try split at he) <;> (try split at he) <;>
    simp at he <;> aesop

theorem withSession_fetches (c : Client) (w : World) (colorUrl bovwUrl name : Str) :
    Event.flareGet colorUrl (some name) 60000 ∈ (Post.withSession c w colorUrl bovwUrl name).2 ∧
    Event.flareGet bovwUrl (some name) 60000 ∈ (Post.withSession c w colorUrl bovwUrl name).2 := by
  unfold Post.withSession
  cases hcf : w.colorFirst <;> cases hc : w.getColor <;> cases hb : w.getBovw <;>
    simp only [hcf, hc, hb] <;>
    (try split) <;> (try split) <;> simp

/-- The calls of `Post.withResponse`: none, or a failed `SessionsCreate`
alone, or a successful `SessionsCreate`, then the fetches and extractions,
then the `SessionsDestroy` of the same session. -/
theorem withResponse_trace (c : Client) (w : World) (resp : HttpResponse) :
    (Post.withResponse c w resp).2 = [] ∨
    (w.sessionsCreate ≠ none ∧
      (Post.withResponse c w resp).2 = [.sessionsCreate ("ascii2d_".toList ++ w.now)]) ∨
    (w.sessionsCreate = none ∧ ∃ mid,
      (Post.withResponse c w resp).2 =
        .sessionsCreate ("ascii2d_".toList ++ w.now) :: mid
          ++ [.sessionsDestroy ("ascii2d_".toList ++ w.now)] ∧
      ∀ e ∈ mid, (∃ u, e = .flareGet u (some ("ascii2d_".toList ++ w.now)) 60000) ∨
        (∃ b u, e = .getResult b u)) := by
  unfold Post.withResponse
  by_cases hst : resp.StatusCode ≠ 302
  · left; rw [if_pos hst]
  · rw [if_neg hst]
    simp only
    by_cases hloc : resp.HeaderGet "Location".toList = []
    · left; rw [if_pos hloc]
    · rw [if_neg hloc]
      right
      cases hsc : w.sessionsCreate with
      | some e => left; exact ⟨by simp, rfl⟩
      | none =>
        right
        refine ⟨rfl, (Post.withSession c w (resp.HeaderGet "Location".toList)
          (Post.bovwUrl (resp.HeaderGet "Location".toList)) ("ascii2d_".toList ++ w.now)).2, ?_, ?_⟩
        · simp
        · exact withSession_trace c w _ _ _

/-- The calls of `Post`: none, or the POST alone, or the POST, the calls of
`Post.withResponse` and the closing of the response body. -/
theorem Post_trace (c : Client) (w : World) (img : Bytes) :
    (Post c w img).2 = [] ∨
    (Post c w img).2 = [.httpPost (c.Host ++ API_SEARCH_FILE)] ∨
    ∃ resp, w.httpDo = .ok resp ∧
      (Post c w img).2 = .httpPost (c.Host ++ API_SEARCH_FILE) ::
        (Post.withResponse c w resp).2 ++ [.bodyClose] := by
  unfold Post
  cases w.createFormFile with
  | some e => left; rfl
  | none =>
  cases w.partWrite with
  | some e => left; rfl
  | none =>
  cases w.writerClose with
  | some e => left; rfl
  | none =>
  cases w.newRequest with
  | some e => left; rfl
  | none =>
  cases hdo : w.httpDo with
  | error e => right; left; rfl
  | ok resp => right; right; exact ⟨resp, rfl, by simp⟩

theorem withResponse_outcome (c : Client) (w : World) (resp : HttpResponse) :
    (∃ e, (Post.withResponse c w resp).1 = Outcome.fail e) ∨
    (Post.withResponse c w resp).1.isPair (resp.HeaderGet "Location".toList)
      (Post.bovwUrl (resp.HeaderGet "Location".toList)) := by
  unfold Post.withResponse
  by_cases hst : resp.StatusCode ≠ 302
  · left; rw [if_pos hst]; exact ⟨_, rfl⟩
  · rw [if_neg hst]
    simp only
    by_cases hloc : resp.HeaderGet "Location".toList = []
    · left; rw [if_pos hloc]; exact ⟨_, rfl⟩
    · rw [if_neg hloc]
      cases hsc : w.sessionsCreate with
      | some e => left; exact ⟨e, rfl⟩
      | none => exact withSession_outcome c w _ _ _

theorem Post_outcome (c : Client) (w : World) (img : Bytes) :
    (∃ e, (Post c w img).1 = Outcome.fail e) ∨
    ∃ resp, w.httpDo = .ok resp ∧
      (Post c w img).1.isPair (resp.HeaderGet "Location".toList)
        (Post.bovwUrl (resp.HeaderGet "Location".toList)) := by
  unfold Post
  cases w.createFormFile with
  | some e => left; exact ⟨e, rfl⟩
  | none =>
  cases w.partWrite with
  | some e => left; exact ⟨e, rfl⟩
  | none =>
  cases w.writerClose with
  | some e => left; exact ⟨e, rfl⟩
  | none =>
  cases w.newRequest with
  | some e => left; exact ⟨e, rfl⟩
  | none =>
  cases hdo : w.httpDo with
  | error e => left; exact ⟨e, rfl⟩
  | ok resp =>
    rcases withResponse_outcome c w resp with ⟨e, he⟩ | h
    · left; exact ⟨e, he⟩
    · right; exact ⟨resp, rfl, h⟩

theorem Get_outcome (c : Client) (w : World) (imgUrl : Str) :
    (∃ e, (Get c w imgUrl).1 = Outcome.fail e) ∨
    ∃ sol, w.getColor = .ok sol ∧ (Get c w imgUrl).1.isPair sol.Url (Get.bovwUrl sol.Url) := by
  unfold Get
  cases hc : w.getColor with
  | error e => left; exact ⟨e, rfl⟩
  | ok solc =>
    cases hb : w.getBovw with
    | error e => left; exact ⟨e, rfl⟩
    | ok solb =>
      simp only
      rcases getResult_shape c w.parse solc.Response solc.Url with ⟨e, he⟩ | ⟨r, hr, h1, h2, h3⟩
      · left; rw [he]; exact ⟨e, rfl⟩
      · rw [hr]
        simp only
        rcases getResult_shape c w.parse solb.Response (Get.bovwUrl solc.Url) with
          ⟨e, he⟩ | ⟨r2, hr2, g1, g2, g3⟩
        · left; rw [he]; exact ⟨e, rfl⟩
        · right
          rw [hr2]
          exact ⟨solc, rfl, rfl, h1, g1, rfl, rfl, h3, g3⟩

theorem Get_trace (c : Client) (w : World) (imgUrl : Str) :
    ∃ t, (Get c w imgUrl).2 =
      .flareGet (c.Host ++ API_SEARCH_URL ++ "/".toList ++ imgUrl) none 60000 :: t ∧
      ∀ e ∈ t, e.isFsOpen = false := by
  unfold Get
  cases hc : w.getColor with
  | error e => exact ⟨[], rfl, by simp⟩
  | ok solc =>
    cases hb : w.getBovw with
    | error e => exact ⟨_, rfl, by simp [Event.isFsOpen]⟩
    | ok solb =>
      simp only
      split
      · exact ⟨_, rfl, by simp [Event.isFsOpen]⟩
      · split
        · exact ⟨_, rfl, by simp [Event.isFsOpen]⟩
        · exact ⟨_, rfl, by simp [Event.isFsOpen]⟩

theorem Search_reader_outcome (c : Client) (w : World) (img : Reader) :
    (∃ e, (Search.reader c w img).1 = Outcome.fail e) ∨
    ∃ resp, w.httpDo = .ok resp ∧
      (Search.reader c w img).1.isPair (resp.HeaderGet "Location".toList)
        (Post.bovwUrl (resp.HeaderGet "Location".toList)) := by
  unfold Search.reader
  cases img.readAll with
  | error e => left; exact ⟨e, rfl⟩
  | ok b => exact Post_outcome c w b

theorem Search_outcome (c : Client) (w : World) (image : Image) :
    (∃ e, (Search c w image).1 = Outcome.fail e) ∨
    (∃ resp, w.httpDo = .ok resp ∧
      (Search c w image).1.isPair (resp.HeaderGet "Location".toList)
        (Post.bovwUrl (resp.HeaderGet "Location".toList))) ∨
    (∃ sol, w.getColor = .ok sol ∧
      (Search c w image).1.isPair sol.Url (Get.bovwUrl sol.Url)) := by
  unfold Search
  cases image with
  | string img =>
    simp only
    split
    · rcases Get_outcome c w img with h | h
      · left; exact h
      · right; right; exact h
    · cases w.openFile img with
      | error e => left; exact ⟨e, rfl⟩
      | ok f =>
        rcases Search_reader_outcome c w f with h | h
        · left; exact h
        · right; left; exact h
  | bytes img =>
    rcases Post_outcome c w img with h | h
    · left; exact h
    · right; left; exact h
  | reader img =>
    rcases Search_reader_outcome c w img with h | h
    · left; exact h
    · right; left; exact h
  | other t => left; exact ⟨_, rfl⟩

theorem resultType_color (u : Str) (h : Contains u "/color/".toList = true) :
    getResult.resultType u = "color".toList := by
  unfold getResult.resultType
  rw [if_pos h]

theorem resultType_bovw (u : Str) (h : Contains u "/color/".toList = false)
    (h2 : Contains u "/bovw/".toList = true) :
    getResult.resultType u = "bovw".toList := by
  unfold getResult.resultType
  rw [if_neg (by rw [h]; exact Bool.false_ne_true), if_pos h2]

/-! ## Claims on the flows -/

/-- C3 as stated fails: the POST is answered 302 with the `Location`
`https://ascii2d.net/search/XYZ`, which has no `/color/` segment, and both
pages have one entry; `Search` returns no error and the result type of the
first record is empty, not `color`. -/
theorem Search_result_type_counterexample :
    (Search sampleClient (sampleWorld "https://ascii2d.net/search/XYZ".toList) (.bytes [])).1.err
      = none ∧
    (Search sampleClient (sampleWorld "https://ascii2d.net/search/XYZ".toList) (.bytes [])).1.color.ResultType
      = [] ∧
    ¬ (((Search sampleClient (sampleWorld "https://ascii2d.net/search/XYZ".toList) (.bytes [])).1.err
          = none ∧
        (Search sampleClient (sampleWorld "https://ascii2d.net/search/XYZ".toList) (.bytes [])).1.color.ResultType
          = "color".toList ∧
        (Search sampleClient (sampleWorld "https://ascii2d.net/search/XYZ".toList) (.bytes [])).1.bovw.ResultType
          = "bovw".toList) ∨
      ((Search sampleClient (sampleWorld "https://ascii2d.net/search/XYZ".toList) (.bytes [])).1.err
          ≠ none ∧
        (Search sampleClient (sampleWorld "https://ascii2d.net/search/XYZ".toList) (.bytes [])).1.color
          = Result.zero ∧
        (Search sampleClient (sampleWorld "https://ascii2d.net/search/XYZ".toList) (.bytes [])).1.bovw
          = Result.zero)) := by
  decide

/-- C3, amended: every `Search` either returns no error and two records
marked successful, whose ResultUrl are the color URL (the `Location` of the
POST in the Upload flow, the resolved URL in the URL flow) and the bovw URL
derived from it, the first of type `color` when the color URL contains
`/color/` and the second of type `bovw` when moreover the derived bovw URL
does not contain `/color/`; or it returns an error and both records are
zero-valued. -/
theorem Search_color_bovw_or_nothing (c : Client) (w : World) (image : Image) :
    ((Search c w image).1.err = none ∧
      (∃ colorUrl bovwUrl,
        ((∃ resp, w.httpDo = .ok resp ∧ colorUrl = resp.HeaderGet "Location".toList ∧
            bovwUrl = Post.bovwUrl colorUrl) ∨
          (∃ sol, w.getColor = .ok sol ∧ colorUrl = sol.Url ∧
            bovwUrl = Get.bovwUrl colorUrl)) ∧
        (Search c w image).1.color.ResultUrl = colorUrl ∧
        (Search c w image).1.bovw.ResultUrl = bovwUrl ∧
        (Search c w image).1.color.Success = true ∧
        (Search c w image).1.bovw.Success = true ∧
        (Contains colorUrl "/color/".toList = true →
          (Search c w image).1.color.ResultType = "color".toList) ∧
        (Contains colorUrl "/color/".toList = true →
          Contains bovwUrl "/color/".toList = false →
          (Search c w image).1.bovw.ResultType = "bovw".toList)))
    ∨ ((Search c w image).1.err ≠ none ∧
        (Search c w image).1.color = Result.zero ∧
        (Search c w image).1.bovw = Result.zero) := by
  rcases Search_outcome c w image with ⟨e, he⟩ | ⟨resp, hdo, hp⟩ | ⟨sol, hg, hp⟩
  · right
    rw [he]
    exact ⟨by simp [Outcome.fail], rfl, rfl⟩
  · left
    obtain ⟨h0, h1, h2, h3, h4, h5, h6⟩ := hp
    refine ⟨h0, _, _, Or.inl ⟨resp, hdo, rfl, rfl⟩, h3, h4, h1, h2, ?_, ?_⟩
    · intro hc
      rw [h5]; exact resultType_color _ hc
    · intro hc hb
      rw [h6]
      exact resultType_bovw _ hb
        (Contains_Replace _ _ _ 1 (Or.inl rfl) (by decide) hc)
  · left
    obtain ⟨h0, h1, h2, h3, h4, h5, h6⟩ := hp
    refine ⟨h0, _, _, Or.inr ⟨sol, hg, rfl, rfl⟩, h3, h4, h1, h2, ?_, ?_⟩
    · intro hc
      rw [h5]; exact resultType_color _ hc
    · intro hc hb
      rw [h6]
      have hr : Contains (Replace sol.Url "/color/".toList "/bovw/".toList (-1))
          "/bovw/".toList = true :=
        Contains_Replace _ _ _ (-1) (Or.inr (by decide)) (by decide) hc
      exact resultType_bovw _ hb hr

/-- Witness of the amended C3: a POST answered 302 with the `Location`
`https://ascii2d.net/search/color/XYZ` and two one-entry pages give no
error, a `color` record and a `bovw` record. -/
theorem Search_color_bovw_or_nothing_witness :
    (Search sampleClient (sampleWorld "https://ascii2d.net/search/color/XYZ".toList)
      (.bytes [])).1 =
      { color := sampleResult,
        bovw := { sampleResult with
          ResultUrl := "https://ascii2d.net/search/bovw/XYZ".toList,
          ResultType := "bovw".toList },
        err := none } ∧
    (Search sampleClient (sampleWorld "https://ascii2d.net/search/color/XYZ".toList)
      (.bytes [])).1.color.ResultType = "color".toList ∧
    (Search sampleClient (sampleWorld "https://ascii2d.net/search/color/XYZ".toList)
      (.bytes [])).1.bovw.ResultType = "bovw".toList := by
  refine ⟨by decide, ?_⟩
  rcases Search_color_bovw_or_nothing sampleClient
    (sampleWorld "https://ascii2d.net/search/color/XYZ".toList) (.bytes []) with
    ⟨_, colorUrl, bovwUrl, _, hcu, hbu, _, _, hc, hb⟩ | ⟨he, _⟩
  · have h1 : Contains colorUrl "/color/".toList = true := by
      rw [← hcu]; decide
    have h2 : Contains bovwUrl "/color/".toList = false := by
      rw [← hbu]; decide
    exact ⟨hc h1, hb h1 h2⟩
  · exact absurd (by decide) he

/-- C4: when the POST is answered with a status code other than 302, `Post`
returns the error whose message is the status text and two zero-valued
records, and its only calls are the POST and the closing of the response
body: no `SessionsCreate` and no other collaborator call. -/
theorem Post_status_not_found (c : Client) (w : World) (img : Bytes) (resp : HttpResponse)
    (h1 : w.createFormFile = none) (h2 : w.partWrite = none) (h3 : w.writerClose = none)
    (h4 : w.newRequest = none) (hdo : w.httpDo = .ok resp) (hst : resp.StatusCode ≠ 302) :
    (Post c w img).1.err = some ⟨resp.Status⟩ ∧
    (Post c w img).1.color = Result.zero ∧
    (Post c w img).1.bovw = Result.zero ∧
    (Post c w img).2 = [.httpPost (c.Host ++ API_SEARCH_FILE), .bodyClose] ∧
    (∀ e ∈ (Post c w img).2, e.isCollaborator = false) := by
  have hP : Post c w img =
      (Outcome.fail ⟨resp.Status⟩, [.httpPost (c.Host ++ API_SEARCH_FILE), .bodyClose]) := by
    unfold Post
    simp only [h1, h2, h3, h4, hdo, Post.withResponse, if_pos hst]
    rfl
  rw [hP]
  refine ⟨rfl, rfl, rfl, rfl, ?_⟩
  intro e he
  simp only [List.mem_cons, List.mem_singleton] at he
  rcases he with rfl | rfl | he
  · rfl
  · rfl
  · simp at he

/-- Witness of C4: a POST answered `500 Internal Server Error`. -/
theorem Post_status_not_found_witness :
    (Post sampleClient statusWorld []).1.err = some ⟨"500 Internal Server Error".toList⟩ ∧
    (Post sampleClient statusWorld []).1.color = Result.zero ∧
    (Post sampleClient statusWorld []).1.bovw = Result.zero ∧
    (Post sampleClient statusWorld []).2 =
      [.httpPost (sampleClient.Host ++ API_SEARCH_FILE), .bodyClose] ∧
    (∀ e ∈ (Post sampleClient statusWorld []).2, e.isCollaborator = false) :=
  Post_status_not_found sampleClient statusWorld []
    { Status := "500 Internal Server Error".toList, StatusCode := 500, Header := [] }
    rfl rfl rfl rfl rfl (by decide)

/-- C5: when `Post` calls `SessionsCreate` and the call succeeds, its calls
are some calls, the `SessionsCreate`, some calls, the `SessionsDestroy` of
the same session name, some calls, and none of these other calls is a
`SessionsCreate` or a `SessionsDestroy`: the session is destroyed exactly
once, after its creation and before `Post` returns, whatever the fetches
and extractions do.  When `SessionsCreate` fails or is not reached, `Post`
makes no `SessionsDestroy` call. -/
theorem Post_session_destroyed_once (c : Client) (w : World) (img : Bytes) :
    ((Event.sessionsCreate ("ascii2d_".toList ++ w.now) ∈ (Post c w img).2 ∧
        w.sessionsCreate = none) →
      (∃ pre mid post,
        (Post c w img).2 = pre ++ .sessionsCreate ("ascii2d_".toList ++ w.now) :: mid
          ++ .sessionsDestroy ("ascii2d_".toList ++ w.now) :: post ∧
        ∀ e ∈ pre ++ mid ++ post, e.isSessionsDestroy = false ∧ e.isSessionsCreate = false) ∧
      (Post c w img).2.countP Event.isSessionsDestroy = 1) ∧
    (¬ (Event.sessionsCreate ("ascii2d_".toList ++ w.now) ∈ (Post c w img).2 ∧
        w.sessionsCreate = none) →
      ∀ e ∈ (Post c w img).2, e.isSessionsDestroy = false) := by
  rcases Post_trace c w img with h | h | ⟨resp, hdo, h⟩
  · rw [h]; simp
  · rw [h]; simp [Event.isSessionsDestroy]
  · rcases withResponse_trace c w resp with hw | ⟨hsc, hw⟩ | ⟨hsc, mid, hw, hmid⟩
    · rw [h, hw]; simp [Event.isSessionsDestroy]
    · rw [h, hw]
      constructor
      · intro hh; exact absurd hh.2 hsc
      · intro _ e he
        simp only [List.cons_append, List.nil_append, List.mem_cons, List.mem_singleton] at he
        rcases he with rfl | rfl | rfl | he
        · rfl
        · rfl
        · rfl
        · simp at he
    · have hm : ∀ e ∈ mid, e.isSessionsDestroy = false ∧ e.isSessionsCreate = false := by
        intro e he
        rcases hmid e he with ⟨u, rfl⟩ | ⟨b, u, rfl⟩ <;> exact ⟨rfl, rfl⟩
      have hcount : mid.countP Event.isSessionsDestroy = 0 := by
        rw [List.countP_eq_zero]
        intro e he
        rw [(hm e he).1]; exact Bool.false_ne_true
      rw [h, hw]
      constructor
      · intro _
        constructor
        · refine ⟨[.httpPost (c.Host ++ API_SEARCH_FILE)], mid, [.bodyClose], by simp, ?_⟩
          intro e he
          simp only [List.mem_append, List.mem_singleton] at he
          rcases he with (rfl | he) | rfl
          · exact ⟨rfl, rfl⟩
          · exact hm e he
          · exact ⟨rfl, rfl⟩
        · simp [List.countP_cons, List.countP_append, hcount, Event.isSessionsDestroy]
      · intro hn
        exfalso
        apply hn
        exact ⟨by simp, hsc⟩

/-- Witness of C5: in the sample world the session is created. -/
theorem Post_session_destroyed_once_witness :
    (Event.sessionsCreate ("ascii2d_".toList ++ "20240102030405".toList) ∈
        (Post sampleClient (sampleWorld "https://ascii2d.net/search/color/XYZ".toList) []).2 ∧
      (sampleWorld "https://ascii2d.net/search/color/XYZ".toList).sessionsCreate = none) ∧
    (Post sampleClient (sampleWorld "https://ascii2d.net/search/color/XYZ".toList) []).2.countP
      Event.isSessionsDestroy = 1 :=
  ⟨⟨by decide, rfl⟩,
    ((Post_session_destroyed_once sampleClient
      (sampleWorld "https://ascii2d.net/search/color/XYZ".toList) []).1
      ⟨by decide, rfl⟩).2⟩

/-- C6: when `Post` has created the session, both pages are fetched; if the
color fetch failed, `Post` returns the error of the color fetch whatever the
bovw fetch did, otherwise if the bovw fetch failed it returns the error of
the bovw fetch; in both cases the two records are zero-valued and
`getResult` is not called. -/
theorem Post_fetch_error_precedence (c : Client) (w : World) (img : Bytes)
    (resp : HttpResponse)
    (h1 : w.createFormFile = none) (h2 : w.partWrite = none) (h3 : w.writerClose = none)
    (h4 : w.newRequest = none) (hdo : w.httpDo = .ok resp) (hst : resp.StatusCode = 302)
    (hloc : resp.HeaderGet "Location".toList ≠ []) (hsc : w.sessionsCreate = none) :
    (Event.flareGet (resp.HeaderGet "Location".toList)
        (some ("ascii2d_".toList ++ w.now)) 60000 ∈ (Post c w img).2 ∧
      Event.flareGet (Post.bovwUrl (resp.HeaderGet "Location".toList))
        (some ("ascii2d_".toList ++ w.now)) 60000 ∈ (Post c w img).2) ∧
    (∀ colorErr, w.getColor = .error colorErr →
      (Post c w img).1.err = some colorErr ∧
      (Post c w img).1.color = Result.zero ∧ (Post c w img).1.bovw = Result.zero ∧
      ∀ e ∈ (Post c w img).2, e.isGetResult = false) ∧
    (∀ sol bovwErr, w.getColor = .ok sol → w.getBovw = .error bovwErr →
      (Post c w img).1.err = some bovwErr ∧
      (Post c w img).1.color = Result.zero ∧ (Post c w img).1.bovw = Result.zero ∧
      ∀ e ∈ (Post c w img).2, e.isGetResult = false) := by
  have hP : Post c w img =
      ((Post.withSession c w (resp.HeaderGet "Location".toList)
          (Post.bovwUrl (resp.HeaderGet "Location".toList)) ("ascii2d_".toList ++ w.now)).1,
        [.httpPost (c.Host ++ API_SEARCH_FILE)] ++
          ([.sessionsCreate ("ascii2d_".toList ++ w.now)] ++
            (Post.withSession c w (resp.HeaderGet "Location".toList)
              (Post.bovwUrl (resp.HeaderGet "Location".toList))
              ("ascii2d_".toList ++ w.now)).2 ++
            [.sessionsDestroy ("ascii2d_".toList ++ w.now)]) ++ [.bodyClose]) := by
    unfold Post
    simp only [h1, h2, h3, h4, hdo, Post.withResponse, hst, ne_eq, not_true_eq_false,
      if_false, if_neg hloc, hsc]
  have hfail : ∀ err : GoError,
      (Post.withSession c w (resp.HeaderGet "Location".toList)
        (Post.bovwUrl (resp.HeaderGet "Location".toList)) ("ascii2d_".toList ++ w.now))
        = (Outcome.fail err,
            if w.colorFirst then
              [.flareGet (resp.HeaderGet "Location".toList)
                  (some ("ascii2d_".toList ++ w.now)) 60000,
                .flareGet (Post.bovwUrl (resp.HeaderGet "Location".toList))
                  (some ("ascii2d_".toList ++ w.now)) 60000]
            else
              [.flareGet (Post.bovwUrl (resp.HeaderGet "Location".toList))
                  (some ("ascii2d_".toList ++ w.now)) 60000,
                .flareGet (resp.HeaderGet "Location".toList)
                  (some ("ascii2d_".toList ++ w.now)) 60000]) →
      (Post c w img).1.err = some err ∧
      (Post c w img).1.color = Result.zero ∧ (Post c w img).1.bovw = Result.zero ∧
      ∀ e ∈ (Post c w img).2, e.isGetResult = false := by
    intro err hws
    rw [hP, hws]
    refine ⟨rfl, rfl, rfl, ?_⟩
    intro e he
    cases hcf : w.colorFirst <;> simp [hcf] at he <;>
      rcases he with rfl | rfl | rfl | rfl | rfl | rfl <;> rfl
  refine ⟨?_, ?_, ?_⟩
  · have hf := withSession_fetches c w (resp.HeaderGet "Location".toList)
      (Post.bovwUrl (resp.HeaderGet "Location".toList)) ("ascii2d_".toList ++ w.now)
    rw [hP]
    constructor
    · simp only [List.mem_append]
      exact Or.inl (Or.inr (Or.inl (Or.inr hf.1)))
    · simp only [List.mem_append]
      exact Or.inl (Or.inr (Or.inl (Or.inr hf.2)))
  · intro colorErr hc
    apply hfail
    unfold Post.withSession
    simp only [hc]
  · intro sol bovwErr hc hb
    apply hfail
    unfold Post.withSession
    simp only [hc, hb]

/-- Witness of C6: both fetches fail and `Post` returns the error of the
color fetch. -/
theorem Post_fetch_error_precedence_witness :
    fetchErrorWorld.getColor = .error ⟨"color: timeout".toList⟩ ∧
    (Post sampleClient fetchErrorWorld []).1.err = some ⟨"color: timeout".toList⟩ ∧
    (Post sampleClient fetchErrorWorld []).1.color = Result.zero ∧
    (Post sampleClient fetchErrorWorld []).1.bovw = Result.zero ∧
    ∀ e ∈ (Post sampleClient fetchErrorWorld []).2, e.isGetResult = false :=
  ⟨rfl,
    (Post_fetch_error_precedence sampleClient fetchErrorWorld []
      { Status := "302 Found".toList, StatusCode := 302,
        Header := [("Location".toList, "https://ascii2d.net/search/color/XYZ".toList)] }
      rfl rfl rfl rfl rfl rfl (by decide) rfl).2.1 ⟨"color: timeout".toList⟩ rfl⟩

/-- C7 as stated fails: the string `http.png` begins with neither `http://`
nor `https://`, and `Search` routes it to the URL flow without opening a file. -/
theorem Search_string_routing_counterexample :
    ¬ (HasPrefix "http.png".toList "http://".toList = true ∨
       HasPrefix "http.png".toList "https://".toList = true) ∧
    Search sampleClient (sampleWorld "https://ascii2d.net/search/color/XYZ".toList)
        (.string "http.png".toList)
      = Get sampleClient (sampleWorld "https://ascii2d.net/search/color/XYZ".toList)
        "http.png".toList ∧
    ∀ e ∈ (Search sampleClient (sampleWorld "https://ascii2d.net/search/color/XYZ".toList)
        (.string "http.png".toList)).2, e.isFsOpen = false := by
  decide

/-- C7, amended: `Search` routes a string to the URL flow (`Get`), without
any filesystem open, exactly when the string begins with `http`; every
other string is a local path and the first call is the open of that path. -/
theorem Search_string_routing (c : Client) (w : World) (s : Str) :
    (HasPrefix s "http".toList = true ↔
      (Search c w (.string s) = Get c w s ∧
        ∀ e ∈ (Search c w (.string s)).2, e.isFsOpen = false)) ∧
    (HasPrefix s "http".toList = false ↔
      (Search c w (.string s)).2.head? = some (.fsOpen s)) := by
  obtain ⟨t, ht, hno⟩ := Get_trace c w s
  cases hp : HasPrefix s "http".toList with
  | true =>
    have hS : Search c w (.string s) = Get c w s := by
      unfold Search
      simp only [hp, if_true]
    rw [hS, ht]
    constructor
    · constructor
      · intro _
        refine ⟨rfl, ?_⟩
        intro e he
        rcases List.mem_cons.mp he with rfl | he
        · rfl
        · exact hno e he
      · intro _; trivial
    · constructor
      · intro h; exact absurd h (by simp)
      · intro h; simp at h
  | false =>
    have hhead : (Search c w (.string s)).2.head? = some (.fsOpen s) := by
      unfold Search
      simp only [hp, Bool.false_eq_true, if_false]
      cases w.openFile s <;> rfl
    constructor
    · constructor
      · intro h; exact absurd h (by simp)
      · rintro ⟨_, hopen⟩
        exfalso
        cases ht2 : (Search c w (.string s)).2 with
        | nil => rw [ht2] at hhead; simp at hhead
        | cons a as =>
          rw [ht2] at hhead hopen
          simp only [List.head?_cons, Option.some.injEq] at hhead
          have := hopen a (List.mem_cons_self _ _)
          rw [hhead] at this
          simp [Event.isFsOpen] at this
    · constructor
      · intro _; exact hhead
      · intro _; trivial

/-- C8 as stated fails: `http_cache/missing.png` is a local path with no
scheme that names no existing file (the open of every path fails in the
sample world); `Search` never opens it, does not return the open error and
calls the collaborator instead. -/
theorem Search_missing_file_counterexample :
    ¬ (HasPrefix "http_cache/missing.png".toList "http://".toList = true ∨
       HasPrefix "http_cache/missing.png".toList "https://".toList = true) ∧
    (sampleWorld "https://ascii2d.net/search/color/XYZ".toList).openFile
        "http_cache/missing.png".toList
      = .error ⟨"open: no such file or directory".toList⟩ ∧
    (Search sampleClient (sampleWorld "https://ascii2d.net/search/color/XYZ".toList)
        (.string "http_cache/missing.png".toList)).1.err
      ≠ some ⟨"open: no such file or directory".toList⟩ ∧
    (∀ e ∈ (Search sampleClient (sampleWorld "https://ascii2d.net/search/color/XYZ".toList)
        (.string "http_cache/missing.png".toList)).2, e.isFsOpen = false) ∧
    ¬ ∀ e ∈ (Search sampleClient (sampleWorld "https://ascii2d.net/search/color/XYZ".toList)
        (.string "http_cache/missing.png".toList)).2, e.isNetwork = false :=
  ⟨by decide, rfl, by decide, by decide, by decide⟩

/-- C8, amended: for every string that does not begin with `http` and names
no existing local file, `Search` returns the error of the open and two
zero-valued records, and its only call is that open: no HTTP POST and no
collaborator call. -/
theorem Search_missing_file (c : Client) (w : World) (s : Str) (err : GoError)
    (hp : HasPrefix s "http".toList = false) (hopen : w.openFile s = .error err) :
    (Search c w (.string s)).1.err = some err ∧
    (Search c w (.string s)).1.color = Result.zero ∧
    (Search c w (.string s)).1.bovw = Result.zero ∧
    (Search c w (.string s)).2 = [.fsOpen s] ∧
    ∀ e ∈ (Search c w (.string s)).2, e.isNetwork = false := by
  have hS : Search c w (.string s) = (Outcome.fail err, [.fsOpen s]) := by
    unfold Search
    simp only [hp, Bool.false_eq_true, if_false, hopen]
  rw [hS]
  refine ⟨rfl, rfl, rfl, rfl, ?_⟩
  intro e he
  rw [List.mem_singleton.mp he]
  rfl

/-- Witness of the amended C8 on the path `missing.png`. -/
theorem Search_missing_file_witness :
    HasPrefix "missing.png".toList "http".toList = false ∧
    (Search sampleClient (sampleWorld "https://ascii2d.net/search/color/XYZ".toList)
        (.string "missing.png".toList)).1.err
      = some ⟨"open: no such file or directory".toList⟩ ∧
    (Search sampleClient (sampleWorld "https://ascii2d.net/search/color/XYZ".toList)
        (.string "missing.png".toList)).2 = [.fsOpen "missing.png".toList] :=
  ⟨by decide,
    (Search_missing_file sampleClient (sampleWorld "https://ascii2d.net/search/color/XYZ".toList)
      "missing.png".toList ⟨"open: no such file or directory".toList⟩ (by decide) rfl).1,
    (Search_missing_file sampleClient (sampleWorld "https://ascii2d.net/search/color/XYZ".toList)
      "missing.png".toList ⟨"open: no such file or directory".toList⟩ (by decide) rfl).2.2.2.1⟩

end Ascii2d
